import Mathlib

/-!
Verification of the `snss` record/dispatch framework.

The definitions below are a shallow embedding of `src/snss/lib/node.py`
(`Node`, `Tree`) and `src/snss/lib/protocol.py` (`Status`, `Handler`, `If`,
`Protocol`).  Python dicts are modelled as insertion-ordered association
lists, mutable attributes as record fields threaded through functions, and
exceptions as `Except` results.  Field values are modelled by the small
universe `PV` (bytes, ints and Python `None`), and classes (record types,
dispatcher types, handler functions) by numeric identifiers resolved through
explicit environments.
-/

set_option autoImplicit false

namespace SNSS

/-! ### Python dict as an insertion-ordered association list -/

def alookup {κ ν : Type} [DecidableEq κ] : List (κ × ν) → κ → Option ν
  | [], _ => none
  | (k, v) :: rest, key => if k = key then some v else alookup rest key

def aset {κ ν : Type} [DecidableEq κ] : List (κ × ν) → κ → ν → List (κ × ν)
  | [], key, value => [(key, value)]
  | (k, v) :: rest, key, value =>
    if k = key then (key, value) :: rest else (k, v) :: aset rest key value

/-- Python `dict.update`: existing keys are overwritten in place, new keys are
appended in order. -/
def aupdate {κ ν : Type} [DecidableEq κ] (d ch : List (κ × ν)) : List (κ × ν) :=
  d.map (fun kv => match alookup ch kv.1 with | some v => (kv.1, v) | none => kv)
    ++ ch.filter (fun kv => (alookup d kv.1).isNone)

/-! ### Values and field data -/

abbrev Bytes := List Nat

/-- Python values stored in a record's field mapping: raw bytes, integers
(discriminator tags and scalar fields) and `None`. -/
inductive PV where
  | bytes (b : Bytes)
  | nat (n : Nat)
  | noneV
deriving DecidableEq

/-- A record's `_data` mapping.  Keys are `Option String` because the code
uses `self.case_key` (which may be Python `None`) as a dict key. -/
abbrev Data := List (Option String × PV)

/-- Errors raised inside the codec layer (`node.py`). -/
inductive TErr where
  | keyError (key : Option String)
  | notImplemented (tag : PV) (case_key : Option String)
  | typeError (msg : String)
  | fuel
deriving DecidableEq

/-! ### `Node` (node.py lines 15-100)

A `Node` instance: its class identifier, the `_data` field mapping, the
encoded-byte cache `buffer` and the decode origin `origin`. -/

structure TNode where
  cls : Nat
  data : Data
  buffer : Option Bytes
  origin : Option Bytes
deriving DecidableEq

/-- `Node.update`: `self.buffer = None; self.origin = None`. -/
def nodeUpdate (n : TNode) : TNode :=
  { n with buffer := none, origin := none }

/-- `Node.feed`: `self._data.update(changes); self.update()`. -/
def nodeFeed (n : TNode) (changes : Data) : TNode :=
  nodeUpdate { n with data := aupdate n.data changes }

/-- `Node.dump`: return the cached `buffer` if present, else compute it via
the concrete schema's `_dump` (here the parameter `enc`) and cache it.
`enc` may fail, as `construct` building does on missing fields. -/
def nodeDump (enc : Data → Except TErr Bytes) (n : TNode) : Except TErr (TNode × Bytes) :=
  match n.buffer with
  | some b => Except.ok (n, b)
  | none =>
    match enc n.data with
    | Except.ok b => Except.ok ({ n with buffer := some b }, b)
    | Except.error e => Except.error e

/-- `Node.read`: `data = self._read(buffer)`; if a result is produced, feed it
into `_data` (clearing cache and origin) and then set `origin = buffer`;
otherwise leave the node unchanged.  `dec` returning `none` is the
"not decodable here, skip" signal. -/
def nodeRead (dec : Bytes → Option Data) (n : TNode) (buffer : Bytes) : TNode :=
  match dec buffer with
  | none => n
  | some d => { nodeFeed n d with origin := some buffer }

/-- C6: mutating fields via `feed` clears the encoded-byte cache and the decode
origin together; a subsequent `dump` recomputes the encoding from the merged
fields via `encode` instead of returning any previously cached bytes; and
`read` sets `origin` exactly when the decode succeeds (leaving cache and origin
untouched when the decoder yields nothing). -/
theorem c6_feed_invalidates_cache :
    ∀ (enc : Data → Except TErr Bytes) (dec : Bytes → Option Data)
      (n : TNode) (ch : Data) (buf : Bytes),
      (nodeFeed n ch).buffer = none
      ∧ (nodeFeed n ch).origin = none
      ∧ nodeDump enc (nodeFeed n ch)
          = (enc (aupdate n.data ch)).map
              (fun b => ({ nodeFeed n ch with buffer := some b }, b))
      ∧ (nodeRead dec n buf).origin = (if (dec buf).isSome then some buf else n.origin)
      ∧ (nodeRead dec n buf).buffer = (if (dec buf).isSome then none else n.buffer) := by
  intro enc dec n ch buf
  refine ⟨rfl, rfl, ?_, ?_, ?_⟩
  · cases h : enc (aupdate n.data ch) <;>
      simp [nodeDump, nodeFeed, nodeUpdate, h, Except.map]
  · cases h : dec buf <;> simp [nodeRead, nodeFeed, nodeUpdate, h]
  · cases h : dec buf <;> simp [nodeRead, nodeFeed, nodeUpdate, h]

/-! ### `Tree` (node.py lines 103-198)

Class-level attributes of a `Tree` subtype.  Classes are referenced by
numeric identifiers resolved via `ClsEnv`; `nodes` is the subtype's
`variant_table` (tag to class id), `switch_spec` the back-link
`(parent class, tag)` recorded by `Tree.case`, and `enc`/`dec` the concrete
schema's `_dump`/`_read`. -/

structure TreeCls where
  case_key : Option String
  data_key : Option String
  has_switch : Bool
  nodes : List (Nat × Nat)
  default_node : Option Nat
  switch_spec : Option (Nat × Nat)
  enc : Data → Except TErr Bytes
  dec : Bytes → Option Data

abbrev ClsEnv := Nat → TreeCls

/-- The `MissingSwitchKey` sentinel versus an actual discriminator value. -/
inductive SwitchKey where
  | missing
  | val (v : PV)
deriving DecidableEq

/-- `Tree.get_switch`: the sentinel if `case_key` is unset, else
`self._data[self.case_key]` (a `KeyError` if the key is absent). -/
def get_switch (c : TreeCls) (d : Data) : Except TErr SwitchKey :=
  match c.case_key with
  | none => Except.ok SwitchKey.missing
  | some ck =>
    match alookup d (some ck) with
    | some v => Except.ok (SwitchKey.val v)
    | none => Except.error (TErr.keyError (some ck))

/-- `variant_table` lookup `self.nodes.get(key)`: the table is keyed by the
integer tags registered via `Tree.case`, so any non-integer discriminator
value simply misses. -/
def lookupNodes (nodes : List (Nat × Nat)) (key : PV) : Option Nat :=
  match key with
  | PV.nat k => alookup nodes k
  | _ => none

/-- `Tree.switch`: compute the discriminator; `None` when the sentinel;
otherwise look the tag up in `nodes` and raise `NotImplementedError`
(naming the tag and the owning `case_key`) only when both the lookup misses
and `default_node` is unset — in every other case return the lookup result
itself. -/
def treeSwitch (c : TreeCls) (d : Data) : Except TErr (Option Nat) :=
  match get_switch c d with
  | Except.error e => Except.error e
  | Except.ok SwitchKey.missing => Except.ok none
  | Except.ok (SwitchKey.val k) =>
    let node := lookupNodes c.nodes k
    if node.isNone && c.default_node.isNone then
      Except.error (TErr.notImplemented k c.case_key)
    else
      Except.ok node

/-- `Tree.data(reading=True, to_node=True)`, i.e. `Tree._node_data`: with
`has_switch` the sub-value at `data_key` (which must be bytes to be parsed by
the resolved variant's schema), otherwise the whole mapping — which a byte
parser cannot consume, hence a type error. -/
def treeNodeData (c : TreeCls) (d : Data) : Except TErr Bytes :=
  if c.has_switch then
    match alookup d c.data_key with
    | some (PV.bytes b) => Except.ok b
    | some _ => Except.error (TErr.typeError "payload is not bytes")
    | none => Except.error (TErr.keyError c.data_key)
  else
    Except.error (TErr.typeError "parse of a non-bytes mapping")

/-- `Tree.dump(context, standalone)`: encode self via `Node.dump`; when not
`standalone` and a `switch_spec` back-link exists (and `has_switch`), build a
parent instance via `from_dict({self.case_key: self.buffer})` — note: the
*leaf's own* `case_key` — call `set_switch` with the registered tag (writing
into the *parent's* `case_key`) and return the parent's encoding.  `fuel`
bounds the recursion through the class environment. -/
def treeDump (env : ClsEnv) : Nat → Bool → TNode → Except TErr (TNode × Bytes)
  | 0, _, _ => Except.error TErr.fuel
  | fuel + 1, standalone, n0 =>
    let c := env n0.cls
    let spec :=
      if !standalone && c.switch_spec.isSome && c.has_switch then c.switch_spec else none
    match nodeDump c.enc n0 with
    | Except.error e => Except.error e
    | Except.ok (n, buf) =>
      match spec with
      | some (pcls, key) =>
        let pc := env pcls
        let tree : TNode := ⟨pcls, [(c.case_key, PV.bytes buf)], none, none⟩
        let tree := { tree with data := aset tree.data pc.case_key (PV.nat key) }
        match treeDump env fuel false tree with
        | Except.error e => Except.error e
        | Except.ok (_, pbuf) => Except.ok (n, pbuf)
      | none => Except.ok (n, buf)

/-- A value fed back for `node.origin` (`None` when the inner read decoded
nothing). -/
def pvOfOrigin : Option Bytes → PV
  | some b => PV.bytes b
  | none => PV.noneV

/-- `Tree.read(buffer, basic, context)`: always perform the base
`Node.read`; stop there if `basic`; otherwise resolve the variant — if none,
return self, else read the payload view through the resolved class and, when
this tree owns a discriminator, feed `{node.case_key: node.origin}` (the
*leaf's* `case_key`) back into self.  Returns the pair
(updated self, returned node). -/
def treeRead (env : ClsEnv) : Nat → TNode → Bytes → Bool → Except TErr (TNode × TNode)
  | 0, _, _, _ => Except.error TErr.fuel
  | fuel + 1, n0, buffer, basic =>
    let c := env n0.cls
    let n := nodeRead c.dec n0 buffer
    if basic then Except.ok (n, n)
    else
      match treeSwitch c n.data with
      | Except.error e => Except.error e
      | Except.ok none => Except.ok (n, n)
      | Except.ok (some lcls) =>
        match treeNodeData c n.data with
        | Except.error e => Except.error e
        | Except.ok data =>
          match treeRead env fuel ⟨lcls, [], none, none⟩ data false with
          | Except.error e => Except.error e
          | Except.ok (_, lnode) =>
            let lc := env lcls
            let n' :=
              if c.has_switch then nodeFeed n [(lc.case_key, pvOfOrigin lnode.origin)]
              else n
            Except.ok (n', lnode)

/-! ### C2: tag resolution with a default variant -/

/-- A tree type with variant table `{6: class 100}`, `default_node` set to
class 101 and an unrecognized discriminator value 7 in its data. -/
def cC2 : TreeCls :=
  ⟨some "type", some "buffer", true, [(6, 100)], some 101, none,
    fun _ => Except.error (TErr.typeError "unused"), fun _ => none⟩

def dC2 : Data := [(some "type", PV.nat 7)]

/-- The same tree type but with `default_node` unset. -/
def cC2nd : TreeCls :=
  ⟨some "type", some "buffer", true, [(6, 100)], none, none,
    fun _ => Except.error (TErr.typeError "unused"), fun _ => none⟩

/-- C2 counterexample: with `default_node` set (class 101) and the
unrecognized tag 7, `Tree.switch` returns `None` — the lookup miss — and
not the default type, contradicting the claim that resolution returns the
default. -/
theorem c2_default_counterexample :
    treeSwitch cC2 dC2 = Except.ok none
    ∧ treeSwitch cC2 dC2 ≠ Except.ok (some 101) := by
  refine ⟨rfl, ?_⟩
  intro h
  rw [show treeSwitch cC2 dC2 = Except.ok none from rfl] at h
  exact Option.noConfusion (Except.ok.inj h)

/-- C2 (amended): for a tree whose discriminator resolves to a tag absent from
`variant_table`: if `default_node` is set, `switch` returns no variant (so a
read falls back to the tree itself); if `default_node` is unset, `switch`
raises the "unimplemented variant" error naming the offending tag (and the
owning `case_key`). -/
theorem c2_unknown_tag_resolution (c : TreeCls) (d : Data) (ck : String) (k : PV)
    (hck : c.case_key = some ck)
    (hval : alookup d (some ck) = some k)
    (hmiss : lookupNodes c.nodes k = none) :
    (c.default_node.isSome = true → treeSwitch c d = Except.ok none)
    ∧ (c.default_node = none →
        treeSwitch c d = Except.error (TErr.notImplemented k c.case_key)) := by
  constructor
  · intro hd
    simp [treeSwitch, get_switch, hck, hval, hmiss]
    intro hnone
    rw [hnone] at hd
    simp at hd
  · intro hd
    simp [treeSwitch, get_switch, hck, hval, hmiss, hd]

/-- C2 witness: the amended theorem applied at the two concrete trees above
(default present and absent) with the unrecognized tag 7. -/
theorem c2_unknown_tag_resolution_witness :
    treeSwitch cC2 dC2 = Except.ok none
    ∧ treeSwitch cC2nd dC2 = Except.error (TErr.notImplemented (PV.nat 7) (some "type")) := by
  refine ⟨?_, ?_⟩
  · exact (c2_unknown_tag_resolution cC2 dC2 "type" (PV.nat 7) rfl rfl rfl).1 rfl
  · exact (c2_unknown_tag_resolution cC2nd dC2 "type" (PV.nat 7) rfl rfl rfl).2 rfl

/-! ### C3: envelope round-trip through `dump(standalone=False)` / `read`

Concrete world: class 0 is the parent envelope `P` (discriminator field
`"type"`, payload field `"buffer"`, variant table `{6: class 1}`) and class 1
is the leaf `L`, registered via `P.case(6)` so that
`L.switch_spec = (P, 6)`.  `L` keeps the `Tree` class defaults
`case_key = None`, `data_key = None`, `has_switch = True` — exactly the
situation of every registered leaf in `src/snss/protocol.py` (leaves subclass
`Command`, not the parent `SessionCommands`, so they inherit no keys).
Both codecs are perfect round-trips on their own field sets, so any failure
below is the envelope logic's, not the codecs'. -/

/-- Parent codec: `Struct(type, buffer)`.  Like `construct`, building fails on
a missing field. -/
def encP (d : Data) : Except TErr Bytes :=
  match alookup d (some "type") with
  | some (PV.nat t) =>
    match alookup d (some "buffer") with
    | some (PV.bytes b) => Except.ok (t :: b)
    | _ => Except.error (TErr.keyError (some "buffer"))
  | _ => Except.error (TErr.keyError (some "type"))

def decP (b : Bytes) : Option Data :=
  match b with
  | t :: rest => some [(some "type", PV.nat t), (some "buffer", PV.bytes rest)]
  | [] => none

/-- Leaf codec: a single integer field `"id"`. -/
def encL (d : Data) : Except TErr Bytes :=
  match alookup d (some "id") with
  | some (PV.nat v) => Except.ok [v]
  | _ => Except.error (TErr.keyError (some "id"))

def decL (b : Bytes) : Option Data :=
  match b with
  | [v] => some [(some "id", PV.nat v)]
  | _ => none

def clsP : TreeCls := ⟨some "type", some "buffer", true, [(6, 1)], none, none, encP, decP⟩

def clsL : TreeCls := ⟨none, none, true, [], none, some (0, 6), encL, decL⟩

def envC3 : ClsEnv := fun i => if i = 0 then clsP else clsL

def leafC3 : TNode := ⟨1, [(some "id", PV.nat 42)], none, none⟩

/-- C3: evaluated at a registered leaf with its parent link and tag set,
`dump(standalone=False)` does not produce a parent envelope at all: the leaf's
encoded bytes are wrapped under the leaf's own `case_key` (`None`), never
under the parent's payload field `"buffer"`, so encoding the parent instance
fails on the missing payload field — while the same leaf dumps fine
standalone, and its codec round-trips.  The claimed round-trip
`parent.read(leaf.dump(standalone=False))` therefore cannot reproduce the
leaf. -/
theorem c3_envelope_roundtrip_fails :
    treeDump envC3 4 false leafC3 = Except.error (TErr.keyError (some "buffer"))
    ∧ (treeDump envC3 4 true leafC3).map (fun p => p.2) = Except.ok [42]
    ∧ decL [42] = some leafC3.data := by
  refine ⟨rfl, rfl, rfl⟩

/-! ### `Status` and `Handler` (protocol.py lines 19-57) -/

inductive Status where
  | DAEMON
  | NORMAL
  | IMPORTANT
  | URGENT
deriving DecidableEq

/-- The `IntEnum` value of a `Status`. -/
def Status.val : Status → Nat
  | Status.DAEMON => 0
  | Status.NORMAL => 1
  | Status.IMPORTANT => 2
  | Status.URGENT => 3

/-- A handler function object: its identity plus the attributes stashed on it
by the `is_responder` / `is_reducer` taggers (`__responder__`, `__reducer__`).
`responder_attr = some true` models the attribute being present (the tagger
always stores `True`); `reducer_attr` models
`getattr(function, REDUCER_FLAG, False)`. -/
structure Func where
  fid : Nat
  responder_attr : Option Bool
  reducer_attr : Bool
deriving DecidableEq

/-- What a handler-table entry's `function` field can hold: a plain function,
a `Protocol` subclass (a child-dispatcher type), or — after `handle` rewrites
the entry — the bound `handle` method of an instantiated child. -/
inductive FuncVal where
  | plain (f : Func)
  | protocolCls (k : Nat)
  | boundHandle (k : Nat)
deriving DecidableEq

/-- `getattr(function, RESPONDER_FLAG, default)`: only plain functions carry
the stashed attribute. -/
def FuncVal.responderAttr : FuncVal → Option Bool
  | FuncVal.plain f => f.responder_attr
  | _ => none

/-- `getattr(function, REDUCER_FLAG, False)`. -/
def FuncVal.reducerAttr : FuncVal → Bool
  | FuncVal.plain f => f.reducer_attr
  | _ => false

/-- The `Handler` descriptor: the same four named fields serve both as the
stored registration dict (`register_handler` appends
`dict(function=..., responder_cls=..., status=..., pass_protocol=...)`) and as
the `Handler` object built from it via `Handler(**case)`. -/
structure Handler where
  function : FuncVal
  responder_cls : Option Nat
  status : Status
  pass_protocol : Bool
deriving DecidableEq

/-- `Handler.is_responder`:
`getattr(self.function, RESPONDER_FLAG, self.responder_cls) is not None` —
note the `getattr` default is `self.responder_cls`, so an untagged function
counts as a responder whenever a `responder_cls` was supplied at
registration. -/
def Handler.is_responder (h : Handler) : Bool :=
  match h.function.responderAttr with
  | some _ => true
  | none => h.responder_cls.isSome

/-- `Handler.is_reducer`: `getattr(self.function, REDUCER_FLAG, False)`. -/
def Handler.is_reducer (h : Handler) : Bool :=
  h.function.reducerAttr

/-- The accumulator value threaded through a handler chain (`None` or an
integer result). -/
abbrev Acc := Option Nat

/-- One positional argument of a handler invocation. -/
inductive Arg where
  | protocol
  | node
  | peer (k : Option Nat)
  | acc (v : Acc)
deriving DecidableEq

/-- `Handler.__call__` argument assembly: `args = []`; append the protocol if
`pass_protocol`; append the node; append `responder_cls` if `is_responder`;
append `previous_value` if `is_reducer`. -/
def Handler.callArgs (h : Handler) (previous_value : Acc) : List Arg :=
  (if h.pass_protocol then [Arg.protocol] else [])
    ++ [Arg.node]
    ++ (if h.is_responder then [Arg.peer h.responder_cls] else [])
    ++ (if h.is_reducer then [Arg.acc previous_value] else [])

/-- Behaviour of handler functions: applied to its argument list, a function
either returns a new accumulator value or raises. -/
abbrev Env := FuncVal → List Arg → Except Unit Acc

/-- Observable dispatch events: a handler function invoked with its assembled
arguments, an `on_error` report, or the `on_unknown_case` fallback. -/
inductive Event where
  | called (f : FuncVal) (args : List Arg)
  | errorReported
  | unknownCase
deriving DecidableEq

/-- `Protocol.call_handler`: invoke the handler; on success the returned value
becomes the new accumulator; any exception is caught, reported via
`on_error`, and the accumulator is left at its pre-call value. -/
def call_handler (env : Env) (value : Acc) (h : Handler) : Acc × List Event :=
  let args := h.callArgs value
  match env h.function args with
  | Except.ok v => (v, [Event.called h.function args])
  | Except.error _ => (value, [Event.called h.function args, Event.errorReported])

/-- The loop of `Protocol.call_handlers` from an arbitrary starting
accumulator. -/
def call_handlersGo (env : Env) : Acc → List Handler → Acc × List Event
  | value, [] => (value, [])
  | value, h :: rest =>
    let r := call_handler env value h
    let rest' := call_handlersGo env r.1 rest
    (rest'.1, r.2 ++ rest'.2)

/-- `Protocol.call_handlers`: `value = None`, then
`for handler in handlers: value = self.call_handler(value, handler, node)` —
iterating `handlers` (the heap's backing list) in list order. -/
def call_handlers (env : Env) (handlers : List Handler) : Acc × List Event :=
  call_handlersGo env none handlers

/-! ### `heapq.heappush` on the handler heap

`Handler.__lt__` is `-self.status < -other.status`; `heappush` appends and
sifts the new item towards the root exactly as CPython's `_siftdown` does.
The fuel argument is the position being sifted, which strictly decreases, so
`pos` iterations always suffice. -/

def handlerLt (a b : Handler) : Bool :=
  -(a.status.val : Int) < -(b.status.val : Int)

def siftdownLoop (newitem : Handler) (startpos : Nat) :
    Nat → List Handler → Nat → List Handler
  | 0, heap, pos => heap.set pos newitem
  | fuel + 1, heap, pos =>
    if startpos < pos then
      let parentpos := (pos - 1) / 2
      let parent := (heap.get? parentpos).getD newitem
      if handlerLt newitem parent then
        siftdownLoop newitem startpos fuel (heap.set pos parent) parentpos
      else heap.set pos newitem
    else heap.set pos newitem

def heappush (heap : List Handler) (item : Handler) : List Handler :=
  let h := heap ++ [item]
  siftdownLoop item 0 h.length h (h.length - 1)

/-! ### `Protocol.handle` (protocol.py lines 241-272) -/

/-- The per-case body of the gather loop in `handle`:
`function = case.pop('function')`; if the function is a `Protocol` subclass,
redirect it to the instantiated child's bound `handle` and set
`case['pass_protocol'] = False`; then `case['function'] = function`.  The
same rewritten dict is both stored back in the table and used to build the
`Handler` pushed on the heap. -/
def processCase (c : Handler) : Handler :=
  match c.function with
  | FuncVal.protocolCls k =>
    { c with function := FuncVal.boundHandle k, pass_protocol := false }
  | _ => c

/-- `for case in cases: ... heapq.heappush(handlers, handler)` — returns the
rewritten stored list together with the grown heap. -/
def processCases : List Handler → List Handler → List Handler × List Handler
  | [], heap => ([], heap)
  | c :: rest, heap =>
    let c' := processCase c
    let r := processCases rest (heappush heap c')
    (c' :: r.1, r.2)

/-- A handler-table condition: `None` or an `If` whose `check(self, node)` is
re-evaluated against the configuration and the record on every dispatch. -/
abbrev ConfigT := List (String × Nat)

abbrev Check := ConfigT → Data → Bool

abbrev CondGroup := Option Check × List Handler

/-- `for condition, cases in conditional_cases.items()`: evaluate each
condition now; for passing groups process and push their cases (mutating the
stored dicts); failing groups are left untouched. -/
def processGroups (cfg : ConfigT) (nodeData : Data) :
    List CondGroup → List Handler → List CondGroup × List Handler
  | [], heap => ([], heap)
  | (cond, cases) :: rest, heap =>
    let check := match cond with | none => true | some c => c cfg nodeData
    if check then
      let r := processCases cases heap
      let r' := processGroups cfg nodeData rest r.2
      ((cond, r.1) :: r'.1, r'.2)
    else
      let r' := processGroups cfg nodeData rest heap
      ((cond, cases) :: r'.1, r'.2)

/-- `Protocol.handle`: an immediate return when `_aborted`; the
`on_unknown_case` fallback when this dispatcher is not in the record type's
interest registry; otherwise gather the groups keyed by the record's exact
type and by `ALL_NODES` into one heap and run `call_handlers`.  Returns the
(possibly rewritten) stored groups and the event trace. -/
def handle (env : Env) (cfg : ConfigT) (aborted member : Bool)
    (typeGroups allGroups : List CondGroup) (nodeData : Data) :
    List CondGroup × List CondGroup × List Event :=
  if aborted then (typeGroups, allGroups, [])
  else if !member then (typeGroups, allGroups, [Event.unknownCase])
  else
    let rt := processGroups cfg nodeData typeGroups []
    let ra := processGroups cfg nodeData allGroups rt.2
    (rt.1, ra.1, (call_handlers env ra.2).2)

/-! ### C7: the call-argument assembly rule -/

/-- The call-argument rule exactly as the specification words it: prepend the
dispatcher if `pass_dispatcher`; always include the record; append the peer
type if the handler is a responder; append the running accumulator if it is a
reducer.  Stated separately from `Handler.callArgs` (which is translated from
`Handler.__call__`) so the two can be compared. -/
def specArgAssembly (passDispatcher responder reducer : Bool)
    (peer : Option Nat) (previous : Acc) : List Arg :=
  (if passDispatcher then [Arg.protocol] else [])
    ++ [Arg.node]
    ++ (if responder then [Arg.peer peer] else [])
    ++ (if reducer then [Arg.acc previous] else [])

/-- C7 (amended): every invocation assembles its arguments by the fixed rule,
and `is_reducer` is intrinsic to the bound function (the explicit tag alone);
but `is_responder` holds iff the function was explicitly tagged *or* a
`responder_cls` was supplied at registration — it is not independent of the
peer-type argument. -/
theorem c7_call_argument_assembly :
    ∀ (h : Handler) (v : Acc),
      h.callArgs v
        = specArgAssembly h.pass_protocol h.is_responder h.is_reducer h.responder_cls v
      ∧ h.is_reducer = h.function.reducerAttr
      ∧ h.is_responder = (h.function.responderAttr.isSome || h.responder_cls.isSome) := by
  intro h v
  refine ⟨rfl, rfl, ?_⟩
  cases hr : h.function.responderAttr <;> simp [Handler.is_responder, hr]

def fUntagged : Func := ⟨0, none, false⟩

def hWithPeer : Handler := ⟨FuncVal.plain fUntagged, some 7, Status.NORMAL, true⟩

def hWithoutPeer : Handler := ⟨FuncVal.plain fUntagged, none, Status.NORMAL, true⟩

/-- C7 counterexample: the very same untagged function is a responder when a
`peer_type` was supplied at registration and not one otherwise — `getattr`'s
fallback is `self.responder_cls`, so `is_responder` is *not* independent of
the `peer_type` argument's presence. -/
theorem c7_responder_depends_on_peer :
    hWithPeer.function = hWithoutPeer.function
    ∧ hWithPeer.is_responder ≠ hWithoutPeer.is_responder := by
  decide

/-! ### C4: per-handler fault isolation -/

/-- C4: if a handler anywhere in the chain always raises, the chain still runs
to completion — the fault is reported (`on_error`), it does not propagate, the
remaining handlers all execute, and the accumulator they receive equals its
value before the faulting call. -/
theorem c4_fault_isolation (env : Env) (v : Acc) (pre post : List Handler) (hf : Handler)
    (hfault : ∀ args, env hf.function args = Except.error ()) :
    call_handlersGo env v (pre ++ hf :: post)
      = ((call_handlersGo env (call_handlersGo env v pre).1 post).1,
         (call_handlersGo env v pre).2
           ++ Event.called hf.function (hf.callArgs (call_handlersGo env v pre).1)
           :: Event.errorReported
           :: (call_handlersGo env (call_handlersGo env v pre).1 post).2) := by
  induction pre generalizing v with
  | nil => simp [call_handlersGo, call_handler, hfault]
  | cons h rest ih =>
    simp only [List.cons_append, call_handlersGo, List.append_eq]
    rw [ih]
    simp [List.append_assoc]

def envC4 : Env := fun fv _ =>
  match fv with
  | FuncVal.plain f => if f.fid = 1 then Except.error () else Except.ok (some f.fid)
  | _ => Except.ok none

def hFaulty : Handler := ⟨FuncVal.plain ⟨1, none, true⟩, none, Status.NORMAL, true⟩

def hFirst : Handler := ⟨FuncVal.plain ⟨2, none, true⟩, none, Status.NORMAL, true⟩

def hLast : Handler := ⟨FuncVal.plain ⟨3, none, true⟩, none, Status.NORMAL, true⟩

/-- C4 witness: the fault-isolation theorem applied to a three-handler chain
whose middle handler always raises. -/
theorem c4_fault_isolation_witness :
    call_handlersGo envC4 none ([hFirst] ++ hFaulty :: [hLast])
      = ((call_handlersGo envC4 (call_handlersGo envC4 none [hFirst]).1 [hLast]).1,
         (call_handlersGo envC4 none [hFirst]).2
           ++ Event.called hFaulty.function (hFaulty.callArgs (call_handlersGo envC4 none [hFirst]).1)
           :: Event.errorReported
           :: (call_handlersGo envC4 (call_handlersGo envC4 none [hFirst]).1 [hLast]).2) :=
  c4_fault_isolation envC4 none [hFirst] [hLast] hFaulty (fun _ => rfl)

/-! ### C1: dispatch order across distinct priorities -/

def hDaemon : Handler := ⟨FuncVal.plain ⟨10, none, false⟩, none, Status.DAEMON, true⟩

def hNormal : Handler := ⟨FuncVal.plain ⟨11, none, false⟩, none, Status.NORMAL, true⟩

def hUrgent : Handler := ⟨FuncVal.plain ⟨12, none, false⟩, none, Status.URGENT, true⟩

def envOk : Env := fun _ _ => Except.ok none

/-- Function identifiers of the invoked handlers, in invocation order. -/
def calledIds (events : List Event) : List Nat :=
  events.filterMap (fun e =>
    match e with
    | Event.called (FuncVal.plain f) _ => some f.fid
    | _ => none)

/-- C1: with handlers for the same record type registered in the order
DAEMON (fid 10), NORMAL (fid 11), URGENT (fid 12), `handle` pushes them onto a
heap but `call_handlers` iterates the heap's *backing list*, so the execution
order is URGENT, DAEMON, NORMAL — DAEMON's effect precedes NORMAL's,
violating the claimed descending-priority order URGENT, NORMAL, DAEMON. -/
theorem c1_priority_order_violated :
    calledIds (handle envOk [] false true [(none, [hDaemon, hNormal, hUrgent])] [] []).2.2
      = [12, 10, 11]
    ∧ ([12, 10, 11] : List Nat) ≠ [12, 11, 10] := by
  exact ⟨rfl, by decide⟩

/-! ### C9: child-dispatcher redirect and descriptor mutation -/

def childCase : Handler := ⟨FuncVal.protocolCls 5, none, Status.NORMAL, true⟩

def childCaseMutated : Handler := ⟨FuncVal.boundHandle 5, none, Status.NORMAL, false⟩

/-- C9: dispatching a record whose handler entry refers to a child-dispatcher
type does redirect the invocation to the child's `handle` with no dispatcher
argument (the call trace shows `boundHandle 5` invoked with just the record),
but the stored registration dict is rewritten in place — after one dispatch
the class-shared table holds `function = boundHandle 5, pass_protocol = False`
instead of the descriptor as originally registered. -/
theorem c9_descriptor_mutated_by_dispatch :
    (handle envOk [] false true [(none, [childCase])] [] []).1
        = [(none, [childCaseMutated])]
    ∧ (handle envOk [] false true [(none, [childCase])] [] []).2.2
        = [Event.called (FuncVal.boundHandle 5) [Arg.node]]
    ∧ childCaseMutated ≠ childCase := by
  refine ⟨rfl, rfl, by decide⟩

/-! ### `Protocol.configure` and `Protocol.__init__` (protocol.py lines 135-176)

An entry of the class-level `_registry`: whether the registered type is the
`ALL_NODES` wildcard, and its guard condition (whose `check(self, None)`
depends only on the configuration).  Each entry is paired with its current
activation state — membership of this dispatcher in the type's interest
registry. -/

structure REntry where
  isWildcard : Bool
  cond : Option (ConfigT → Bool)

/-- `check = True if condition is None else condition.check(self, None)`. -/
def entryCheck (cfg : ConfigT) (e : REntry) : Bool :=
  match e.cond with
  | none => true
  | some c => c cfg

/-- The registry loop of `configure`: on a passing check, activate
(`on_register(..., add_protocol=True)`); on a failing check, deactivate, and
if the entry is the wildcard (`abort_on_check_failure`), set `_aborted` and
`break` — entries not yet reached keep their prior activation state.  Returns
the new activation states and whether the abort flag was set. -/
def configureEntries (cfg : ConfigT) : List (REntry × Bool) → List (REntry × Bool) × Bool
  | [] => ([], false)
  | (e, _a) :: rest =>
    if entryCheck cfg e then
      let r := configureEntries cfg rest
      ((e, true) :: r.1, r.2)
    else if e.isWildcard then
      ((e, false) :: rest, true)
    else
      let r := configureEntries cfg rest
      ((e, false) :: r.1, r.2)

/-- The mutable instance state touched by `configure`. -/
structure PState where
  config : ConfigT
  aborted : Bool

/-- `Protocol.configure`: merge the overrides into `_config` (additively),
then run the registry loop.  `_aborted` is only ever *set* by the loop, never
cleared, so it stays true if it already was. -/
def protoConfigure (reg : List (REntry × Bool)) (st : PState) (overrides : ConfigT) :
    PState × List (REntry × Bool) :=
  let cfg := aupdate st.config overrides
  let r := configureEntries cfg reg
  ({ config := cfg, aborted := st.aborted || r.2 }, r.1)

/-- `Protocol.__init__`: `self._config = \x7b\x7d`, then `self.configure(**config)`,
then — *after* configure has run — `self._aborted = False`.  (During the
constructor's configure call the attribute does not exist yet and is only
assigned by the loop; it is modelled as starting false.) -/
def protoInit (reg : List (REntry × Bool)) (cfg0 : ConfigT) : PState × List (REntry × Bool) :=
  let r := protoConfigure reg { config := [], aborted := false } cfg0
  ({ r.1 with aborted := false }, r.2)

/-- Registry run for an entry list whose wildcard guard fails: every earlier
(non-wildcard) entry is activated or deactivated per its check, the wildcard
is deactivated, the loop breaks with the abort flag set, and the remaining
entries keep their prior activation states. -/
theorem configureEntries_wildcard_break (cfg : ConfigT)
    (pre post : List (REntry × Bool)) (w : REntry) (aw : Bool)
    (hw : w.isWildcard = true)
    (hpre : ∀ p ∈ pre, p.1.isWildcard = false)
    (hfail : entryCheck cfg w = false) :
    configureEntries cfg (pre ++ (w, aw) :: post)
      = (pre.map (fun p => (p.1, entryCheck cfg p.1)) ++ (w, false) :: post, true) := by
  induction pre with
  | nil => simp [configureEntries, hfail, hw]
  | cons p rest ih =>
    obtain ⟨e, a⟩ := p
    have hpw : e.isWildcard = false := hpre ⟨e, a⟩ (List.mem_cons_self _ _)
    have ih' := ih (fun q hq => hpre q (List.mem_cons_of_mem _ hq))
    cases hc : entryCheck cfg e with
    | true => simp [configureEntries, hc, ih']
    | false => simp [configureEntries, hc, hpw, ih']

/-- C5: a `configure` call in which the wildcard (`ALL_NODES`) entry's guard
evaluates false leaves the instance with `aborted = true`, deactivates the
wildcard, stops evaluating the registry after it (later entries keep their
prior activation), and every subsequent `handle` call on an aborted instance
returns immediately: the handler tables are untouched and no handler (nor
`on_unknown_case`) is invoked. -/
theorem c5_wildcard_abort (st : PState) (ov : ConfigT)
    (pre post : List (REntry × Bool)) (w : REntry) (aw : Bool)
    (hw : w.isWildcard = true)
    (hpre : ∀ p ∈ pre, p.1.isWildcard = false)
    (hfail : entryCheck (aupdate st.config ov) w = false) :
    (protoConfigure (pre ++ (w, aw) :: post) st ov).1.aborted = true
    ∧ (protoConfigure (pre ++ (w, aw) :: post) st ov).2
        = pre.map (fun p => (p.1, entryCheck (aupdate st.config ov) p.1))
            ++ (w, false) :: post
    ∧ (∀ (env : Env) (cfg : ConfigT) (member : Bool)
          (tg ag : List CondGroup) (nodeData : Data),
          handle env cfg true member tg ag nodeData = (tg, ag, [])) := by
  have key := configureEntries_wildcard_break (aupdate st.config ov) pre post w aw hw hpre hfail
  refine ⟨?_, ?_, ?_⟩
  · simp [protoConfigure, key]
  · simp [protoConfigure, key]
  · intro env cfg member tg ag nd
    rfl

def wcEntry : REntry := ⟨true, some (fun _ => false)⟩

def plainEntry : REntry := ⟨false, none⟩

/-- C5 witness: the abort theorem applied to the concrete registry
`[plain (active=false), wildcard (guard false), plain (active=true)]` with an
empty configuration. -/
theorem c5_wildcard_abort_witness :
    (protoConfigure [(plainEntry, false), (wcEntry, true), (plainEntry, true)]
        ⟨[], false⟩ []).1.aborted = true
    ∧ (protoConfigure [(plainEntry, false), (wcEntry, true), (plainEntry, true)]
        ⟨[], false⟩ []).2
        = [(plainEntry, true), (wcEntry, false), (plainEntry, true)]
    ∧ handle envOk [] true true [] [] [] = ([], [], []) := by
  have h := c5_wildcard_abort ⟨[], false⟩ [] [(plainEntry, false)] [(plainEntry, true)]
      wcEntry true rfl
      (by intro p hp; rw [List.mem_singleton] at hp; subst hp; rfl)
      rfl
  simp only [List.singleton_append] at h
  exact ⟨h.1, by rw [h.2.1]; rfl, h.2.2 envOk [] true [] [] []⟩

/-- C10: whatever registry and configuration the constructor is given — in
particular even when the wildcard guard fails during the constructor's
`configure` call and the loop sets the abort flag — `__init__` assigns
`self._aborted = False` *after* `configure` returns, so a freshly constructed
dispatcher is never aborted. -/
theorem c10_init_not_aborted :
    ∀ (reg : List (REntry × Bool)) (cfg0 : ConfigT),
      (protoInit reg cfg0).1.aborted = false := by
  intro reg cfg0
  rfl

/-! ### C8: `register_tree` (protocol.py lines 197-204) -/

/-- Python `isinstance(node, Tree)` where `node` is an entry of
`tree.nodes` — i.e. itself a *class*: a class object is an instance of its
metaclass (`abc.ABCMeta`), never of `Tree`, so the test is false for every
variant-table entry. -/
def isinstanceTree (_node : Nat) : Bool := false

/-- `Protocol.register_tree`: iterate `tree.nodes.values()`, and for each
entry, when `recursive` and the `isinstance` guard and a non-empty table all
hold, re-enter `register_tree` — on the *parent* `tree` itself, exactly as the
source does — then `register` the entry (appending it to the class-level
`_registry`).  `venv` maps a class id to its `nodes` table and `fuel` bounds
the re-entry (which in fact never happens, the guard being constantly
false). -/
def register_treeF (venv : Nat → List (Nat × Nat)) :
    Nat → List (Nat × Nat) → Bool → List Nat → List Nat
  | 0, _, _, registry => registry
  | fuel + 1, treeNodes, recursive, registry =>
    treeNodes.foldl
      (fun reg entry =>
        let node := entry.2
        let reg :=
          if recursive && isinstanceTree node && !(venv node).isEmpty then
            register_treeF venv fuel treeNodes recursive reg
          else reg
        reg ++ [node])
      registry

/-- Class 200 is a nested tree whose `nodes` table maps tag 3 to class 300;
classes 100 and 300 are plain leaves. -/
def venvC8 : Nat → List (Nat × Nat) := fun i => if i = 200 then [(3, 300)] else []

def treeNodesC8 : List (Nat × Nat) := [(1, 100), (2, 200)]

/-- C8: `register_tree` with `recursive = True` on a tree containing the
non-empty nested tree 200 registers only the top-level entries 100 and 200 —
the nested entry 300 is never registered, because `isinstance(node, Tree)` is
false for a class (and the recursive call, had it been reached, re-enters on
the parent tree rather than the variant). -/
theorem c8_recursive_descent_missing :
    register_treeF venvC8 9 treeNodesC8 true [] = [100, 200]
    ∧ ¬ (300 ∈ register_treeF venvC8 9 treeNodesC8 true []) := by
  exact ⟨rfl, by decide⟩

end SNSS
